import Mathlib

/-!
# Verification of the 3-AD scene-mirror core (src/lib/index.ts, src/lib/backend.three.ts)

This file gives a shallow embedding of the controller-side "scene mirror" of
the 3-AD library (class `Graphics` in `src/lib/index.ts`) and of the
transform-reading step of the renderer backend (`GraphicsBackend` in
`src/lib/backend.three.ts`), and proves properties of the entity-identity
allocator, the command queue, the texture-dedup cache, the back-channel
dispatcher, and the shared transform buffer.

Modelling conventions:
* JavaScript numbers used as identities/counters are modelled as `Nat`
  (all values involved are small non-negative integers).
* 32-bit floats in the shared `Float32Array` are modelled as `ℚ`; the only
  float operations the code performs on them are stores, loads and an
  equality test against `0`, all of which are exact.
* The `#idToObject` `Map<number, Object3D>` is modelled by its key list
  `assignedIds` in insertion order; `Map.set` keeps the existing key slot
  when present and appends otherwise, `Map.delete` removes the key.
* `Worker.postMessage` is modelled by appending the command to the `sent`
  list; the injected `report` hook is modelled by appending to `reports`.
* A JavaScript out-of-bounds store into a `Float32Array` is silently
  discarded; `List.set` has exactly this out-of-bounds behaviour.
-/

namespace ThreeAD

/-- The command taxonomy of `src/lib/commands.ts` (`IGraphicsCommand`).
Payload fields that the verified properties never inspect (structural JSON
data, canvas/buffer handles, image pixel payloads and dimensions) are
omitted; the fields that identify a command (its tag, target identity,
texture identifier and ui flag) are kept. -/
inductive GCmd where
  | init
  | addObject (id : Nat) (ui : Bool)
  | removeObject (id : Nat)
  | updateMaterial (id : Nat)
  | uploadTexture (imageId : String) (ui : Bool)
  | resize (width height : Nat)
  | createParticleSystem (id : Nat)
  deriving DecidableEq, Repr

/-- `Graphics.#bytesPerElement` (`Float32Array.BYTES_PER_ELEMENT`). -/
def bytesPerElement : Nat := 4

/-- `Graphics.#elementsPerTransform`: elements per 4x4 matrix record. -/
def elementsPerTransform : Nat := 16

/-- `Graphics.#maxEntityCount`: maximum number of concurrently live meshes. -/
def maxEntityCount : Nat := 1024

/-- `Graphics.#bufferSize` getter: byte size of the shared transform buffer. -/
def bufferSize : Nat := bytesPerElement * elementsPerTransform * maxEntityCount

/-- Length in `f32` elements of the `Float32Array` view `Graphics.#array`
over the shared buffer (its byte size divided by 4). -/
def transformArrayLength : Nat := elementsPerTransform * maxEntityCount

/-- The mutable state of a `Graphics` instance (`src/lib/index.ts`), as far
as the verified properties observe it:
* `objectId` — the `#objectId` next-identity counter;
* `availableObjectIds` — the `#availableObjectIds` free list (FIFO via
  `push`/`shift`);
* `assignedIds` — the key list of the `#idToObject` map, insertion order;
* `textureCache` — the `#textureCache` set of uploaded texture UUIDs,
  as the list of elements in insertion order;
* `commandQueue` — the `#commandQueue` pending command list;
* `sent` — every command posted so far to the worker, in posting order;
* `reports` — every payload passed so far to the injected `report` hook. -/
structure GState where
  objectId : Nat
  availableObjectIds : List Nat
  assignedIds : List Nat
  textureCache : List String
  commandQueue : List GCmd
  sent : List GCmd
  reports : List String
  deriving DecidableEq, Repr

/-- The state of a freshly constructed `Graphics` instance: counter `0`,
empty free list, empty map, empty texture cache, empty queue. -/
def initialGState : GState :=
  { objectId := 0
    availableObjectIds := []
    assignedIds := []
    textureCache := []
    commandQueue := []
    sent := []
    reports := [] }

/-- `Map.set` on the key list of `#idToObject`: an existing key keeps its
slot, a new key is appended. -/
def mapSetKey (keys : List Nat) (i : Nat) : List Nat :=
  if i ∈ keys then keys else keys ++ [i]

/-- `this.#worker.postMessage(cmd)`: the command is delivered to the
renderer; modelled by appending it to the `sent` stream. -/
def postMessage (s : GState) (cmd : GCmd) : GState :=
  { s with sent := s.sent ++ [cmd] }

/-- `Graphics.submitCommand(cmd, immediate)` (src/lib/index.ts:247-254):
with `immediate = true` the command is posted to the worker at once,
otherwise it is appended to `#commandQueue`.  (The optional `transfer`
argument only affects ownership of binary payloads and is not modelled.) -/
def submitCommand (s : GState) (cmd : GCmd) (immediate : Bool) : GState :=
  if immediate then
    postMessage s cmd
  else
    { s with commandQueue := s.commandQueue ++ [cmd] }

/-- `Graphics.flushCommands()` (src/lib/index.ts:217-222): posts every
queued command to the worker in queue order, then clears the queue. -/
def flushCommands (s : GState) : GState :=
  let s1 := s.commandQueue.foldl postMessage s
  { s1 with commandQueue := [] }

/-- `Graphics.assignIdToObject(object)` (src/lib/index.ts:335-354): returns
the identity given to the object together with the updated state.  The head
of the free list is reused when available (`Array.shift`); otherwise the
current counter value is used and the counter increments, reporting a
capacity diagnostic when the incremented counter exceeds `#maxEntityCount`.
Finally `#idToObject.set(id, object)` records the identity (modelled on the
key list) and `object.userData.meshId = id` is the returned identity. -/
def assignIdToObject (s : GState) : Nat × GState :=
  match s.availableObjectIds with
  | id :: rest =>
      (id, { s with
              availableObjectIds := rest
              assignedIds := mapSetKey s.assignedIds id })
  | [] =>
      let id := s.objectId
      let objectId := s.objectId + 1
      let reports :=
        if maxEntityCount < objectId then
          s.reports ++ ["exceeded maximum object count: 1024"]
        else
          s.reports
      (id, { s with
              objectId := objectId
              reports := reports
              assignedIds := mapSetKey s.assignedIds id })

/-- `Graphics.removeObjectFromScene(object)` (src/lib/index.ts:256-272),
restricted to a single-node object whose `userData.meshId` is the given
value (`none` models an object that was never registered).  The JavaScript
guard `if (node.userData.meshId)` is a truthiness test: it skips both a
missing `meshId` and the value `0`.  When the guard passes, a
`removeObject` command is queued, the identity is deleted from
`#idToObject`, and the identity is pushed onto the free list.  Note that
`userData.meshId` itself is never cleared by removal. -/
def removeObjectFromScene (s : GState) (meshId : Option Nat) : GState :=
  match meshId with
  | none => s
  | some id =>
      if id = 0 then s
      else
        let s1 := submitCommand s (GCmd.removeObject id) false
        { s1 with
            assignedIds := s1.assignedIds.erase id
            availableObjectIds := s1.availableObjectIds ++ [id] }

/-- `Graphics.uploadTexture(map, ui)` (src/lib/index.ts:359-380): if the
texture's UUID is already in `#textureCache` nothing happens; otherwise the
UUID is added to the cache and one `uploadTexture` command is queued.  (The
pixel-extraction through a scratch canvas only produces the command's binary
payload and is not modelled.) -/
def uploadTexture (s : GState) (uuid : String) (ui : Bool) : GState :=
  if uuid ∈ s.textureCache then s
  else
    let s1 := { s with textureCache := s.textureCache ++ [uuid] }
    submitCommand s1 (GCmd.uploadTexture uuid ui) false

/-- The texture references of a three.js material that
`extractMaterialTextures` inspects: its `map` and `alphaMap` UUIDs. -/
structure MaterialTex where
  map : Option String
  alphaMap : Option String
  deriving DecidableEq, Repr

/-- `Graphics.extractMaterialTextures(material, ui)`
(src/lib/index.ts:382-387): uploads the material's `map` and then its
`alphaMap`, when present. -/
def extractMaterialTextures (s : GState) (m : MaterialTex) (ui : Bool) : GState :=
  let s1 := match m.map with
    | some t => uploadTexture s t ui
    | none => s
  match m.alphaMap with
  | some t => uploadTexture s1 t ui
  | none => s1

/-- One node's worth of `Graphics.addObjectToScene` (src/lib/index.ts:
395-444): assign an identity, extract/dedup the textures of each of the
node's materials, and queue one `addObject` command carrying the identity.
(Stripping embedded images from the JSON payload only affects the opaque
structural payload and is not modelled.) -/
def addNodeToScene (s : GState) (mats : List MaterialTex) (ui : Bool) : GState :=
  let r := assignIdToObject s
  let s2 := mats.foldl (fun acc m => extractMaterialTextures acc m ui) r.2
  submitCommand s2 (GCmd.addObject r.1 ui) false

/-- One node's worth of `Graphics.updateMaterial` (src/lib/index.ts:
229-241): re-extract/dedup the node's material textures, then queue one
`updateMaterial` command for the node's `meshId`. -/
def updateMaterialNode (s : GState) (m : MaterialTex) (meshId : Nat) (ui : Bool) : GState :=
  let s1 := extractMaterialTextures s m ui
  submitCommand s1 (GCmd.updateMaterial meshId) false

/-- The allocator-level operations of claim C1: an allocation
(`assignIdToObject`) or a release of identity `i`
(`removeObjectFromScene` on an object whose `userData.meshId` is `i`). -/
inductive AllocOp where
  | alloc
  | release (i : Nat)
  deriving DecidableEq, Repr

/-- Execute one allocator operation. -/
def stepOp (s : GState) : AllocOp → GState
  | AllocOp.alloc => (assignIdToObject s).2
  | AllocOp.release i => removeObjectFromScene s (some i)

/-- Execute a sequence of allocator operations, front to back. -/
def runOps (s : GState) : List AllocOp → GState
  | [] => s
  | op :: ops => runOps (stepOp s op) ops

/-- A sequence of allocator operations is valid when every release targets
an identity that is live (present in `#idToObject`) at that moment — i.e.
each live identity is released at most once per outstanding allocation. -/
def validOpsB (s : GState) : List AllocOp → Bool
  | [] => true
  | AllocOp.alloc :: ops => validOpsB (stepOp s AllocOp.alloc) ops
  | AllocOp.release i :: ops =>
      if i ∈ s.assignedIds then validOpsB (stepOp s (AllocOp.release i)) ops
      else false

/-- The entity-identity-table invariant of claim C1: live identities are
pairwise distinct (the live-object-to-identity mapping is injective), the
free list holds no duplicates, free-listed identities are never currently
assigned, and every assigned or free-listed identity lies strictly below
the `#objectId` counter (so fresh counter-derived identities never collide
with them). -/
def InvAlloc (s : GState) : Prop :=
  s.assignedIds.Nodup ∧
  s.availableObjectIds.Nodup ∧
  (∀ i ∈ s.availableObjectIds, i ∉ s.assignedIds) ∧
  (∀ i ∈ s.assignedIds, i < s.objectId) ∧
  (∀ i ∈ s.availableObjectIds, i < s.objectId)

/-- The state after `k` registrations of fresh objects (no removals) on a
new `Graphics` instance. -/
def allocTimes : Nat → GState
  | 0 => initialGState
  | n + 1 => (assignIdToObject (allocTimes n)).2

/-- The scene-mirror operations observable through the command stream and
texture cache: registering a (single-node) object, updating a node's
material, removing an object, flushing the queue, and a resize event. -/
inductive GOp where
  | addNode (mats : List MaterialTex) (ui : Bool)
  | updateMat (m : MaterialTex) (meshId : Nat) (ui : Bool)
  | removeNode (meshId : Option Nat)
  | flush
  | resize (width height : Nat)
  deriving DecidableEq, Repr

/-- Execute one scene-mirror operation. -/
def stepG (s : GState) : GOp → GState
  | GOp.addNode mats ui => addNodeToScene s mats ui
  | GOp.updateMat m meshId ui => updateMaterialNode s m meshId ui
  | GOp.removeNode meshId => removeObjectFromScene s meshId
  | GOp.flush => flushCommands s
  | GOp.resize w h => submitCommand s (GCmd.resize w h) false

/-- Execute a sequence of scene-mirror operations, front to back. -/
def runG (s : GState) : List GOp → GState
  | [] => s
  | op :: ops => runG (stepG s op) ops

/-- Every command the controller has ever emitted, in emission order: the
commands already posted to the worker followed by the still-pending queue
(flushing moves commands from the latter to the former without loss,
duplication or reordering). -/
def emitted (s : GState) : List GCmd :=
  s.sent ++ s.commandQueue

/-- Whether a command is an `uploadTexture` command carrying texture `T`. -/
def isUploadOf (T : String) : GCmd → Bool
  | GCmd.uploadTexture t _ => t == T
  | _ => false

/-- Number of `uploadTexture` commands carrying texture `T` in a stream. -/
def uploadCount (T : String) (cmds : List GCmd) : Nat :=
  (cmds.filter (isUploadOf T)).length

/-- An invocation of one of the injected diagnostic hooks of the
controller: `workerLog`, `workerReport`, or the controller's own `report`. -/
inductive HookCall where
  | workerLog (msg : String)
  | workerReport (msg : String)
  | report (msg : String)
  deriving DecidableEq, Repr

/-- The `#worker.onmessage` handler installed by the `Graphics` constructor
(src/lib/index.ts:145-161): a back-channel message `{type, message}` tagged
`log` goes to the `workerLog` hook, one tagged `report` goes to the
`workerReport` hook, and any other tag is surfaced through the controller's
`report` hook.  The result lists the hook calls the handler performs. -/
def onWorkerMessage (ty msg : String) : List HookCall :=
  if ty = "log" then [HookCall.workerLog msg]
  else if ty = "report" then [HookCall.workerReport msg]
  else [HookCall.report ("Unknown message type " ++ ty)]

/-- A 4x4 world matrix, as the abstract function from (row, column) to the
entry (`three.js` `Object3D.matrixWorld` viewed mathematically). -/
abbrev Mat4 := Fin 4 → Fin 4 → ℚ

/-- `Matrix4.elements` of three.js: the 16-element flattening of a 4x4
matrix in three.js's documented column-major order — the entry at row `r`,
column `c` sits at linear index `4 * c + r` (e.g. a translation's x, y, z
components sit at indices 12, 13, 14). -/
def matrixWorldElements (m : Mat4) : List ℚ :=
  (List.finRange 16).map fun j =>
    m ⟨j.val % 4, by omega⟩ ⟨j.val / 4, by have := j.isLt; omega⟩

/-- Modelled from the spec's words (for comparison with the code): the
row-major flattening claimed in C9, with the entry at row `r`, column `c`
at linear index `4 * r + c`. -/
def rowMajorElements (m : Mat4) : List ℚ :=
  (List.finRange 16).map fun j =>
    m ⟨j.val / 4, by have := j.isLt; omega⟩ ⟨j.val % 4, by omega⟩

/-- The inner loop of `Graphics.writeTransformsToArray`
(src/lib/index.ts:325-327) after `n` iterations: element `i` of the matrix
record has been stored at buffer index `offset + i` for every `i < n`.
`List.set` discards out-of-range stores exactly as a `Float32Array` does. -/
def writeRecordAux (arr : List ℚ) (offset : Nat) (elems : List ℚ) : Nat → List ℚ
  | 0 => arr
  | n + 1 => (writeRecordAux arr offset elems n).set (offset + n) (elems.getD n 0)

/-- Store one full 16-float matrix record at `offset` in the buffer. -/
def writeRecord (arr : List ℚ) (offset : Nat) (elems : List ℚ) : List ℚ :=
  writeRecordAux arr offset elems elementsPerTransform

/-- `Graphics.writeTransformsToArray()` (src/lib/index.ts:316-329): for
every `(id, object)` entry of `#idToObject` (given here explicitly, with
each object represented by its `matrixWorld`), copy the 16 elements of the
object's world matrix into the shared buffer at offset
`id * #elementsPerTransform`. -/
def writeTransformsToArray (entries : List (Nat × Mat4)) (arr : List ℚ) : List ℚ :=
  entries.foldl
    (fun a e => writeRecord a (e.1 * elementsPerTransform) (matrixWorldElements e.2)) arr

/-- The transform buffer as first allocated: `new SharedArrayBuffer` memory
is zero-initialized, so the `Float32Array` view starts as all zeros. -/
def initialTransformArray : List ℚ :=
  List.replicate transformArrayLength 0

/-- `Matrix4.makeScale(0.1, 0.1, 0.1).elements`: the small uniform scale
matrix the renderer substitutes for an uninitialized record (diagonal, so
its column-major and row-major flattenings coincide). -/
def makeScale01 : List ℚ :=
  [1/10, 0, 0, 0, 0, 1/10, 0, 0, 0, 0, 1/10, 0, 0, 0, 0, 1]

/-- The 16-float record of identity `id` read from the shared buffer, as
`new Matrix4().fromArray(transformArray, offset)` reads it
(src/lib/backend.three.ts:251-252). -/
def recordAt (arr : List ℚ) (id : Nat) : List ℚ :=
  (List.finRange 16).map fun i => arr.getD (id * elementsPerTransform + i.val) 0

/-- One identity's worth of `GraphicsBackend.readTransformsFromArray`
(src/lib/backend.three.ts:250-264): the matrix copied into the object of a
known identity — the record read at the identity's offset, except that when
the record's first element (`matrix.elements[0]`) is zero the uniform scale
`makeScale(0.1, 0.1, 0.1)` is substituted. -/
def readTransformMatrix (arr : List ℚ) (id : Nat) : List ℚ :=
  if (recordAt arr id).headD 0 = 0 then makeScale01 else recordAt arr id

/-- The world matrix of an object translated by (1, 2, 3): identity
rotation/scale block, translation column (1, 2, 3). -/
def translate123 : Mat4 := fun r c =>
  if r = c then 1
  else if c.val = 3 then
    (if r.val = 0 then 1 else if r.val = 1 then 2 else 3)
  else 0

/-- A `Graphics` state with one live object at identity 5 and counter 6,
used to exhibit the behaviour of a double removal. -/
def doubleRemoveStart : GState :=
  { objectId := 6
    availableObjectIds := []
    assignedIds := [5]
    textureCache := []
    commandQueue := []
    sent := []
    reports := [] }

/-- A non-all-zero transform record whose first element is zero (the first
row of a 90-degree rotation about z starts with cos 90 = 0). -/
def zeroHeadRecord : List ℚ :=
  [0, 1, 0, 0, 0, 0, 0, 0, 0, 0, 0, 0, 0, 0, 0, 0]

/-- The texture-dedup invariant of claim C5: the number of `uploadTexture`
commands carrying `T` ever emitted equals `1` when `T` is in the cache and
`0` otherwise. -/
def InvTex (T : String) (s : GState) : Prop :=
  uploadCount T (emitted s) = if T ∈ s.textureCache then 1 else 0

/- ======================  theorems  ====================== -/

theorem elementsPerTransform_eq : elementsPerTransform = 16 := rfl

theorem maxEntityCount_eq : maxEntityCount = 1024 := rfl

theorem transformArrayLength_eq : transformArrayLength = 16384 := rfl

theorem mapSetKey_of_not_mem {keys : List Nat} {i : Nat} (h : i ∉ keys) :
    mapSetKey keys i = keys ++ [i] := by
  simp [mapSetKey, h]

theorem foldl_postMessage (q : List GCmd) (s : GState) :
    q.foldl postMessage s = { s with sent := s.sent ++ q } := by
  induction q generalizing s with
  | nil => simp
  | cons c q ih =>
      rw [List.foldl_cons, ih]
      simp [postMessage]

theorem flushCommands_eq (s : GState) :
    flushCommands s = { s with sent := s.sent ++ s.commandQueue, commandQueue := [] } := by
  rw [flushCommands, foldl_postMessage]

/-- C6: `flushCommands` delivers every pending command to the renderer
exactly once, in submission order (the stream of posted commands is
extended by exactly the queue, in order), and leaves the queue empty; a
non-immediate `submitCommand` only appends the command to the queue and
posts nothing until the next flush. -/
theorem flush_delivers_in_order (s : GState) (cmd : GCmd) :
    (flushCommands s).sent = s.sent ++ s.commandQueue ∧
    (flushCommands s).commandQueue = [] ∧
    (submitCommand s cmd false).commandQueue = s.commandQueue ++ [cmd] ∧
    (submitCommand s cmd false).sent = s.sent ∧
    (flushCommands (submitCommand s cmd false)).sent = s.sent ++ s.commandQueue ++ [cmd] := by
  simp [flushCommands_eq, submitCommand]

theorem removeObjectFromScene_some {s : GState} {i : Nat} (hi : i ≠ 0) :
    removeObjectFromScene s (some i) =
      { s with assignedIds := s.assignedIds.erase i
               availableObjectIds := s.availableObjectIds ++ [i]
               commandQueue := s.commandQueue ++ [GCmd.removeObject i] } := by
  simp [removeObjectFromScene, submitCommand, hi]

theorem assignIdToObject_of_empty {s : GState} (hq : s.availableObjectIds = []) :
    assignIdToObject s =
      (s.objectId,
       { s with objectId := s.objectId + 1
                reports :=
                  if maxEntityCount < s.objectId + 1 then
                    s.reports ++ ["exceeded maximum object count: 1024"]
                  else s.reports
                assignedIds := mapSetKey s.assignedIds s.objectId }) := by
  simp [assignIdToObject, hq]

theorem assignIdToObject_of_cons {s : GState} {id : Nat} {rest : List Nat}
    (hq : s.availableObjectIds = id :: rest) :
    assignIdToObject s =
      (id, { s with availableObjectIds := rest
                    assignedIds := mapSetKey s.assignedIds id }) := by
  simp [assignIdToObject, hq]

/-- C2: allocation reuses released identities in FIFO order, preferring the
free list over the counter.  From any state with an empty free list,
removing the object holding identity `A` and then the object holding
identity `B` and then allocating twice yields `A` first and then `B`; in
particular, removing the object at identity `5` and then registering one
new object gives the new object identity `5`.  (`A` and `B` are nonzero:
identity `0` is permanently the camera's, and `removeObjectFromScene`'s
truthiness guard means identity `0` can never be released.) -/
theorem release_then_allocate_fifo (s : GState) (A B : Nat)
    (hq : s.availableObjectIds = []) (hA : A ≠ 0) (hB : B ≠ 0) :
    (assignIdToObject
        (removeObjectFromScene (removeObjectFromScene s (some A)) (some B))).1 = A ∧
    (assignIdToObject
        (assignIdToObject
          (removeObjectFromScene (removeObjectFromScene s (some A)) (some B))).2).1 = B ∧
    (assignIdToObject (removeObjectFromScene s (some 5))).1 = 5 := by
  rw [removeObjectFromScene_some hA, removeObjectFromScene_some hB,
      removeObjectFromScene_some (show (5 : Nat) ≠ 0 by decide)]
  simp only [hq, List.nil_append]
  rw [assignIdToObject_of_cons rfl]
  rw [assignIdToObject_of_cons rfl]
  rw [assignIdToObject_of_cons rfl]
  exact ⟨rfl, rfl, rfl⟩

/-- Witness for C2 at the concrete state with one live object each at
identities 1 and 2 (counter 6, empty free list). -/
theorem release_then_allocate_fifo_witness :
    doubleRemoveStart.availableObjectIds = [] ∧ (1 : Nat) ≠ 0 ∧ (2 : Nat) ≠ 0 ∧
    ((assignIdToObject
        (removeObjectFromScene (removeObjectFromScene doubleRemoveStart (some 1))
          (some 2))).1 = 1 ∧
     (assignIdToObject
        (assignIdToObject
          (removeObjectFromScene (removeObjectFromScene doubleRemoveStart (some 1))
            (some 2))).2).1 = 2 ∧
     (assignIdToObject (removeObjectFromScene doubleRemoveStart (some 5))).1 = 5) :=
  ⟨rfl, by decide, by decide,
   release_then_allocate_fifo doubleRemoveStart 1 2 rfl (by decide) (by decide)⟩

/-- C3 counterexample: removing the same object twice is not a no-op.
Starting from a state with one live object at identity 5, the first
`removeObjectFromScene` recycles identity 5; the second call — removal
never clears `userData.meshId` — pushes identity 5 onto the free list a
second time and queues a second `removeObject` command, so the free list
and the pending queue both change. -/
theorem double_remove_counterexample :
    (removeObjectFromScene (removeObjectFromScene doubleRemoveStart (some 5))
        (some 5)).availableObjectIds = [5, 5] ∧
    (removeObjectFromScene (removeObjectFromScene doubleRemoveStart (some 5))
        (some 5)).commandQueue = [GCmd.removeObject 5, GCmd.removeObject 5] ∧
    (removeObjectFromScene (removeObjectFromScene doubleRemoveStart (some 5))
        (some 5)).availableObjectIds
      ≠ (removeObjectFromScene doubleRemoveStart (some 5)).availableObjectIds ∧
    (removeObjectFromScene (removeObjectFromScene doubleRemoveStart (some 5))
        (some 5)).commandQueue
      ≠ (removeObjectFromScene doubleRemoveStart (some 5)).commandQueue := by
  decide

/-- C3 amended: a second `removeObjectFromScene` on an already-removed
object (identity no longer in `#idToObject`) does not crash and leaves the
identity table unchanged, but it is not a no-op: it queues another
`removeObject` command and pushes the identity onto the free list a second
time. -/
theorem double_remove_not_noop (s : GState) (i : Nat)
    (hi : i ≠ 0) (hrem : i ∉ s.assignedIds) :
    (removeObjectFromScene s (some i)).assignedIds = s.assignedIds ∧
    (removeObjectFromScene s (some i)).availableObjectIds
      = s.availableObjectIds ++ [i] ∧
    (removeObjectFromScene s (some i)).commandQueue
      = s.commandQueue ++ [GCmd.removeObject i] ∧
    (removeObjectFromScene s (some i)).sent = s.sent := by
  rw [removeObjectFromScene_some hi]
  exact ⟨List.erase_of_not_mem hrem, rfl, rfl, rfl⟩

/-- Witness for the amended C3: the second removal of identity 5. -/
theorem double_remove_not_noop_witness :
    (5 : Nat) ≠ 0 ∧
    5 ∉ (removeObjectFromScene doubleRemoveStart (some 5)).assignedIds ∧
    ((removeObjectFromScene (removeObjectFromScene doubleRemoveStart (some 5))
        (some 5)).assignedIds
        = (removeObjectFromScene doubleRemoveStart (some 5)).assignedIds ∧
     (removeObjectFromScene (removeObjectFromScene doubleRemoveStart (some 5))
        (some 5)).availableObjectIds
        = (removeObjectFromScene doubleRemoveStart (some 5)).availableObjectIds ++ [5] ∧
     (removeObjectFromScene (removeObjectFromScene doubleRemoveStart (some 5))
        (some 5)).commandQueue
        = (removeObjectFromScene doubleRemoveStart (some 5)).commandQueue
            ++ [GCmd.removeObject 5] ∧
     (removeObjectFromScene (removeObjectFromScene doubleRemoveStart (some 5))
        (some 5)).sent
        = (removeObjectFromScene doubleRemoveStart (some 5)).sent) :=
  ⟨by decide, by decide,
   double_remove_not_noop (removeObjectFromScene doubleRemoveStart (some 5)) 5
     (by decide) (by decide)⟩

theorem invAlloc_alloc {s : GState} (h : InvAlloc s) :
    InvAlloc (assignIdToObject s).2 := by
  obtain ⟨h1, h2, h3, h4, h5⟩ := h
  cases hq : s.availableObjectIds with
  | nil =>
      have hid : s.objectId ∉ s.assignedIds := fun hmem => absurd (h4 _ hmem) (lt_irrefl _)
      rw [assignIdToObject_of_empty hq, mapSetKey_of_not_mem hid]
      dsimp only
      refine ⟨?_, ?_, ?_, ?_, ?_⟩
      · simp [List.nodup_append, h1, hid]
      · simp [hq]
      · simp [hq]
      · intro i hi
        rcases List.mem_append.mp hi with hi | hi
        · exact Nat.lt_succ_of_lt (h4 _ hi)
        · simp only [List.mem_singleton] at hi
          rw [hi]
          exact Nat.lt_succ_self _
      · simp [hq]
  | cons id rest =>
      have hmemq : id ∈ s.availableObjectIds := by rw [hq]; exact List.mem_cons_self _ _
      have hid : id ∉ s.assignedIds := h3 _ hmemq
      have hnd : id ∉ rest ∧ rest.Nodup := by
        rw [hq] at h2
        exact ⟨(List.nodup_cons.mp h2).1, (List.nodup_cons.mp h2).2⟩
      rw [assignIdToObject_of_cons hq, mapSetKey_of_not_mem hid]
      dsimp only
      refine ⟨?_, hnd.2, ?_, ?_, ?_⟩
      · simp [List.nodup_append, h1, hid]
      · intro i hi hmem
        have hiq : i ∈ s.availableObjectIds := by rw [hq]; exact List.mem_cons_of_mem _ hi
        rcases List.mem_append.mp hmem with hm | hm
        · exact h3 _ hiq hm
        · simp only [List.mem_singleton] at hm
          exact hnd.1 (hm ▸ hi)
      · intro i hi
        rcases List.mem_append.mp hi with hm | hm
        · exact h4 _ hm
        · simp only [List.mem_singleton] at hm
          rw [hm]
          exact h5 _ hmemq
      · intro i hi
        exact h5 _ (by rw [hq]; exact List.mem_cons_of_mem _ hi)

theorem invAlloc_release {s : GState} {i : Nat}
    (h : InvAlloc s) (hmem : i ∈ s.assignedIds) :
    InvAlloc (removeObjectFromScene s (some i)) := by
  obtain ⟨h1, h2, h3, h4, h5⟩ := h
  by_cases hi : i = 0
  · subst hi
    simpa [removeObjectFromScene] using ⟨h1, h2, h3, h4, h5⟩
  · rw [removeObjectFromScene_some hi]
    have hiav : i ∉ s.availableObjectIds := fun hav => h3 _ hav hmem
    refine ⟨h1.erase i, ?_, ?_, ?_, ?_⟩
    · simp [List.nodup_append, h2, hiav]
    · intro j hj hjm
      have hjl : j ∈ s.assignedIds := List.mem_of_mem_erase hjm
      rcases List.mem_append.mp hj with hm | hm
      · exact h3 _ hm hjl
      · simp only [List.mem_singleton] at hm
        exact absurd hjm (hm ▸ h1.not_mem_erase)
    · intro j hj
      exact h4 _ (List.mem_of_mem_erase hj)
    · intro j hj
      rcases List.mem_append.mp hj with hm | hm
      · exact h5 _ hm
      · simp only [List.mem_singleton] at hm
        rw [hm]
        exact h4 _ hmem

theorem invAlloc_runOps {ops : List AllocOp} {s : GState}
    (h : InvAlloc s) (hv : validOpsB s ops = true) :
    InvAlloc (runOps s ops) := by
  induction ops generalizing s with
  | nil => exact h
  | cons op ops ih =>
      cases op with
      | alloc =>
          rw [validOpsB] at hv
          exact ih (invAlloc_alloc h) hv
      | release i =>
          rw [validOpsB] at hv
          split at hv
          · exact ih (invAlloc_release h (by assumption)) hv
          · exact absurd hv (by simp)

/-- C1: under any sequence of allocations and valid releases (each live
identity released at most once per outstanding allocation), the
entity-identity table keeps its invariant: live identities are pairwise
distinct (the live-object-to-identity mapping stays injective), the free
list holds only identities not currently assigned, and the fresh
counter-derived identity collides with no assigned or free-listed one. -/
theorem entity_identity_invariant (s : GState) (ops : List AllocOp)
    (hInv : InvAlloc s) (hv : validOpsB s ops = true) :
    InvAlloc (runOps s ops) ∧
    (runOps s ops).objectId ∉ (runOps s ops).assignedIds ∧
    (runOps s ops).objectId ∉ (runOps s ops).availableObjectIds := by
  have hfin := invAlloc_runOps hInv hv
  obtain ⟨g1, g2, g3, g4, g5⟩ := hfin
  exact ⟨⟨g1, g2, g3, g4, g5⟩,
         fun hm => absurd (g4 _ hm) (lt_irrefl _),
         fun hm => absurd (g5 _ hm) (lt_irrefl _)⟩

/-- Witness for C1: two allocations, a release of identity 1, and two more
allocations starting from a fresh `Graphics` state. -/
theorem entity_identity_invariant_witness :
    InvAlloc initialGState ∧
    validOpsB initialGState
      [AllocOp.alloc, AllocOp.alloc, AllocOp.release 1, AllocOp.alloc, AllocOp.alloc]
      = true ∧
    (InvAlloc (runOps initialGState
        [AllocOp.alloc, AllocOp.alloc, AllocOp.release 1, AllocOp.alloc, AllocOp.alloc]) ∧
     (runOps initialGState
        [AllocOp.alloc, AllocOp.alloc, AllocOp.release 1, AllocOp.alloc,
          AllocOp.alloc]).objectId
       ∉ (runOps initialGState
            [AllocOp.alloc, AllocOp.alloc, AllocOp.release 1, AllocOp.alloc,
              AllocOp.alloc]).assignedIds ∧
     (runOps initialGState
        [AllocOp.alloc, AllocOp.alloc, AllocOp.release 1, AllocOp.alloc,
          AllocOp.alloc]).objectId
       ∉ (runOps initialGState
            [AllocOp.alloc, AllocOp.alloc, AllocOp.release 1, AllocOp.alloc,
              AllocOp.alloc]).availableObjectIds) :=
  ⟨by unfold InvAlloc; decide, by decide,
   entity_identity_invariant initialGState
     [AllocOp.alloc, AllocOp.alloc, AllocOp.release 1, AllocOp.alloc, AllocOp.alloc]
     (by unfold InvAlloc; decide) (by decide)⟩

theorem allocTimes_le {k : Nat} (hk : k ≤ maxEntityCount) :
    allocTimes k =
      { objectId := k
        availableObjectIds := []
        assignedIds := List.range k
        textureCache := []
        commandQueue := []
        sent := []
        reports := [] } := by
  induction k with
  | zero => rfl
  | succ n ih =>
      have hn : n ≤ maxEntityCount := Nat.le_of_succ_le hk
      have hrep : ¬ maxEntityCount < n + 1 := Nat.not_lt.mpr hk
      have hmem : n ∉ List.range n := by simp
      rw [allocTimes, ih hn, assignIdToObject_of_empty rfl]
      simp [mapSetKey_of_not_mem hmem, hrep, List.range_succ]

/-- C4: allocation never hard-fails at capacity.  Registering `k ≤ 1024`
fresh objects on a new `Graphics` instance triggers no capacity report and
leaves the counter at `k`; after 1024 live objects exist (free list empty),
the next allocation still succeeds — it returns the fresh identity `1024`,
whose transform record offset lies outside the addressable transform
buffer, and advances the counter to `1025` — and it invokes the injected
`report` hook with the capacity diagnostic. -/
theorem capacity_diagnostic (k : Nat) (hk : k ≤ maxEntityCount) :
    (allocTimes k).reports = [] ∧
    (allocTimes k).objectId = k ∧
    (allocTimes maxEntityCount).assignedIds.length = maxEntityCount ∧
    (allocTimes maxEntityCount).availableObjectIds = [] ∧
    (assignIdToObject (allocTimes maxEntityCount)).1 = maxEntityCount ∧
    (assignIdToObject (allocTimes maxEntityCount)).2.reports
      = ["exceeded maximum object count: 1024"] ∧
    (assignIdToObject (allocTimes maxEntityCount)).2.objectId = maxEntityCount + 1 ∧
    transformArrayLength
      ≤ (assignIdToObject (allocTimes maxEntityCount)).1 * elementsPerTransform := by
  rw [allocTimes_le hk, allocTimes_le (le_refl maxEntityCount),
      assignIdToObject_of_empty rfl]
  refine ⟨rfl, rfl, by simp, rfl, rfl, ?_, rfl, ?_⟩
  · simp [maxEntityCount]
  · simp [transformArrayLength, elementsPerTransform, maxEntityCount]

/-- Witness for C4 at `k = 2`. -/
theorem capacity_diagnostic_witness :
    (2 ≤ maxEntityCount) ∧
    ((allocTimes 2).reports = [] ∧
     (allocTimes 2).objectId = 2 ∧
     (allocTimes maxEntityCount).assignedIds.length = maxEntityCount ∧
     (allocTimes maxEntityCount).availableObjectIds = [] ∧
     (assignIdToObject (allocTimes maxEntityCount)).1 = maxEntityCount ∧
     (assignIdToObject (allocTimes maxEntityCount)).2.reports
       = ["exceeded maximum object count: 1024"] ∧
     (assignIdToObject (allocTimes maxEntityCount)).2.objectId = maxEntityCount + 1 ∧
     transformArrayLength
       ≤ (assignIdToObject (allocTimes maxEntityCount)).1 * elementsPerTransform) :=
  ⟨by decide, capacity_diagnostic 2 (by decide)⟩

theorem uploadCount_append (T : String) (l1 l2 : List GCmd) :
    uploadCount T (l1 ++ l2) = uploadCount T l1 + uploadCount T l2 := by
  simp [uploadCount, List.filter_append]

theorem uploadCount_single_upload (T u : String) (ui : Bool) :
    uploadCount T [GCmd.uploadTexture u ui] = if u = T then 1 else 0 := by
  by_cases h : u = T <;> simp [uploadCount, isUploadOf, h]

theorem uploadCount_single_other (T : String) (c : GCmd) (hc : isUploadOf T c = false) :
    uploadCount T [c] = 0 := by
  simp [uploadCount, hc]

theorem emitted_submit (s : GState) (cmd : GCmd) :
    emitted (submitCommand s cmd false) = emitted s ++ [cmd] := by
  simp [submitCommand, emitted]

theorem textureCache_submit (s : GState) (cmd : GCmd) (b : Bool) :
    (submitCommand s cmd b).textureCache = s.textureCache := by
  cases b <;> simp [submitCommand, postMessage]

theorem emitted_flush (s : GState) : emitted (flushCommands s) = emitted s := by
  simp [flushCommands_eq, emitted]

theorem textureCache_flush (s : GState) :
    (flushCommands s).textureCache = s.textureCache := by
  simp [flushCommands_eq]

theorem invTex_uploadTexture {T : String} {s : GState}
    (h : InvTex T s) (u : String) (ui : Bool) :
    InvTex T (uploadTexture s u ui) := by
  unfold InvTex at h ⊢
  by_cases hu : u ∈ s.textureCache
  · simp only [uploadTexture, if_pos hu]
    exact h
  · rw [uploadTexture, if_neg hu, emitted_submit, uploadCount_append,
        uploadCount_single_upload, textureCache_submit]
    show uploadCount T (emitted s) + _ = if T ∈ s.textureCache ++ [u] then 1 else 0
    by_cases hT : u = T
    · subst hT
      rw [h, if_neg hu]
      simp
    · rw [h, if_neg hT]
      have hmm : (T ∈ s.textureCache ++ [u]) ↔ T ∈ s.textureCache := by
        constructor
        · intro hm
          rcases List.mem_append.mp hm with hm | hm
          · exact hm
          · simp only [List.mem_singleton] at hm
            exact absurd hm.symm hT
        · intro hm
          exact List.mem_append.mpr (Or.inl hm)
      rw [if_congr hmm rfl rfl]
      omega

theorem invTex_extract {T : String} {s : GState}
    (h : InvTex T s) (m : MaterialTex) (ui : Bool) :
    InvTex T (extractMaterialTextures s m ui) := by
  rw [extractMaterialTextures]
  cases m.map with
  | none =>
      cases m.alphaMap with
      | none => exact h
      | some t => exact invTex_uploadTexture h t ui
  | some t1 =>
      cases m.alphaMap with
      | none => exact invTex_uploadTexture h t1 ui
      | some t2 => exact invTex_uploadTexture (invTex_uploadTexture h t1 ui) t2 ui

theorem invTex_submit_non_upload {T : String} {s : GState}
    (h : InvTex T s) {c : GCmd} (hc : isUploadOf T c = false) :
    InvTex T (submitCommand s c false) := by
  unfold InvTex at h ⊢
  rw [emitted_submit, uploadCount_append, uploadCount_single_other T c hc,
      textureCache_submit, Nat.add_zero]
  exact h

theorem invTex_assign {T : String} {s : GState} (h : InvTex T s) :
    InvTex T (assignIdToObject s).2 := by
  unfold InvTex at h ⊢
  cases hq : s.availableObjectIds with
  | nil =>
      rw [assignIdToObject_of_empty hq]
      exact h
  | cons id rest =>
      rw [assignIdToObject_of_cons hq]
      exact h

theorem invTex_remove {T : String} {s : GState} (h : InvTex T s) (mid : Option Nat) :
    InvTex T (removeObjectFromScene s mid) := by
  cases mid with
  | none => exact h
  | some i =>
      by_cases hi : i = 0
      · subst hi
        simpa [removeObjectFromScene] using h
      · unfold InvTex at h ⊢
        rw [removeObjectFromScene_some hi]
        show uploadCount T (s.sent ++ (s.commandQueue ++ [GCmd.removeObject i])) = _
        rw [← List.append_assoc]
        rw [show s.sent ++ s.commandQueue = emitted s from rfl]
        rw [uploadCount_append, uploadCount_single_other T (GCmd.removeObject i) rfl,
            Nat.add_zero]
        exact h

theorem invTex_foldl_extract {T : String} (mats : List MaterialTex) {s : GState}
    (h : InvTex T s) (ui : Bool) :
    InvTex T (mats.foldl (fun acc m => extractMaterialTextures acc m ui) s) := by
  induction mats generalizing s with
  | nil => exact h
  | cons m mats ih => exact ih (invTex_extract h m ui)

theorem invTex_stepG {T : String} {s : GState} (h : InvTex T s) (op : GOp) :
    InvTex T (stepG s op) := by
  cases op with
  | addNode mats ui =>
      exact invTex_submit_non_upload
        (invTex_foldl_extract mats (invTex_assign h) ui) rfl
  | updateMat m meshId ui =>
      exact invTex_submit_non_upload (invTex_extract h m ui) rfl
  | removeNode mid => exact invTex_remove h mid
  | flush =>
      have h2 : InvTex T (flushCommands s) := by
        unfold InvTex at h ⊢
        rw [emitted_flush, textureCache_flush]
        exact h
      exact h2
  | resize w hgt => exact invTex_submit_non_upload h rfl

theorem invTex_runG {T : String} (ops : List GOp) {s : GState} (h : InvTex T s) :
    InvTex T (runG s ops) := by
  induction ops generalizing s with
  | nil => exact h
  | cons op ops ih => exact ih (invTex_stepG h op)

/-- C5: for every texture identifier `T`, across any sequence of
scene-mirror operations on a fresh `Graphics` instance, at most one
`uploadTexture` command carrying `T` is ever emitted; the count is one
exactly when `T` has entered the cache.  Moreover the first extraction of
`T` uploads it and marks it seen, and every later extraction of the same
`T` emits nothing (the state is unchanged). -/
theorem texture_uploaded_exactly_once (ops : List GOp) (T : String)
    (s : GState) (ui : Bool) :
    uploadCount T (emitted (runG initialGState ops)) ≤ 1 ∧
    uploadCount T (emitted (runG initialGState ops))
      = (if T ∈ (runG initialGState ops).textureCache then 1 else 0) ∧
    (T ∈ s.textureCache → uploadTexture s T ui = s) ∧
    (T ∉ s.textureCache →
      uploadTexture s T ui
        = { s with textureCache := s.textureCache ++ [T]
                   commandQueue := s.commandQueue ++ [GCmd.uploadTexture T ui] }) := by
  have hinit : InvTex T initialGState := by
    unfold InvTex
    simp [initialGState, emitted, uploadCount]
  have hrun := invTex_runG ops hinit
  unfold InvTex at hrun
  refine ⟨?_, hrun, ?_, ?_⟩
  · rw [hrun]
    split <;> omega
  · intro hmem
    simp [uploadTexture, hmem]
  · intro hmem
    simp [uploadTexture, hmem, submitCommand]

/-- Witness for C5: registering a node with a material referencing texture
"T" and then updating that material with the same "T". -/
theorem texture_uploaded_exactly_once_witness :
    ("T" ∉ initialGState.textureCache) ∧
    uploadCount "T" (emitted (runG initialGState
        [GOp.addNode [MaterialTex.mk (some "T") none] false,
         GOp.updateMat (MaterialTex.mk (some "T") none) 1 false])) ≤ 1 ∧
    uploadTexture initialGState "T" false
      = { initialGState with
            textureCache := ["T"]
            commandQueue := [GCmd.uploadTexture "T" false] } :=
  ⟨by decide,
   (texture_uploaded_exactly_once
      [GOp.addNode [MaterialTex.mk (some "T") none] false,
       GOp.updateMat (MaterialTex.mk (some "T") none) 1 false]
      "T" initialGState false).1,
   by
     have h := (texture_uploaded_exactly_once
        [GOp.addNode [MaterialTex.mk (some "T") none] false,
         GOp.updateMat (MaterialTex.mk (some "T") none) 1 false]
        "T" initialGState false).2.2.2 (by decide)
     simpa [initialGState] using h⟩

/-- C7: the back-channel handler dispatches a `log`-tagged message to the
injected worker-log hook and a `report`-tagged message to the injected
worker-report hook, and surfaces any other tag through the controller's
error-report hook — it never performs zero hook calls. -/
theorem backchannel_dispatch (ty msg : String)
    (h1 : ty ≠ "log") (h2 : ty ≠ "report") :
    onWorkerMessage "log" msg = [HookCall.workerLog msg] ∧
    onWorkerMessage "report" msg = [HookCall.workerReport msg] ∧
    onWorkerMessage ty msg = [HookCall.report ("Unknown message type " ++ ty)] ∧
    onWorkerMessage ty msg ≠ [] := by
  simp [onWorkerMessage, h1, h2]

/-- Witness for C7 at the unrecognized tag "frobnicate". -/
theorem backchannel_dispatch_witness :
    ("frobnicate" ≠ "log") ∧ ("frobnicate" ≠ "report") ∧
    (onWorkerMessage "log" "m" = [HookCall.workerLog "m"] ∧
     onWorkerMessage "report" "m" = [HookCall.workerReport "m"] ∧
     onWorkerMessage "frobnicate" "m"
       = [HookCall.report ("Unknown message type " ++ "frobnicate")] ∧
     onWorkerMessage "frobnicate" "m" ≠ []) :=
  ⟨by decide, by decide, backchannel_dispatch "frobnicate" "m" (by decide) (by decide)⟩

/-- C8 counterexample: the renderer's substitution test is only
`matrix.elements[0] === 0`, not an all-zero test.  The record
`[0, 1, 0, ..., 0]` is not all-zero, yet the renderer replaces it with the
uniform scale matrix instead of applying it unmodified. -/
theorem read_transform_zero_head_counterexample :
    zeroHeadRecord ≠ List.replicate 16 (0 : ℚ) ∧
    recordAt zeroHeadRecord 0 = zeroHeadRecord ∧
    readTransformMatrix zeroHeadRecord 0 = makeScale01 ∧
    readTransformMatrix zeroHeadRecord 0 ≠ zeroHeadRecord := by
  have hread : readTransformMatrix zeroHeadRecord 0 = makeScale01 := rfl
  refine ⟨by decide, by decide, hread, ?_⟩
  rw [hread]
  intro h
  have h0 := congrArg (fun l => l.headD 0) h
  simp only [makeScale01, zeroHeadRecord, List.headD_cons] at h0
  norm_num at h0

/-- C8 amended: the renderer substitutes the small uniform scale exactly
when the record's first element is zero — in particular for every all-zero
(not-yet-initialized) record — and applies a record whose first element is
nonzero directly, unmodified. -/
theorem read_transform_first_element (arr : List ℚ) (id : Nat)
    (hz : (recordAt arr id).headD 0 = 0) :
    readTransformMatrix arr id = makeScale01 ∧
    (∀ arr2 id2, (recordAt arr2 id2).headD 0 ≠ 0 →
        readTransformMatrix arr2 id2 = recordAt arr2 id2) ∧
    (∀ arr3 id3, recordAt arr3 id3 = List.replicate 16 0 →
        readTransformMatrix arr3 id3 = makeScale01) := by
  refine ⟨by rw [readTransformMatrix, if_pos hz], fun arr2 id2 h => ?_, fun arr3 id3 h => ?_⟩
  · rw [readTransformMatrix, if_neg h]
  · rw [readTransformMatrix, if_pos (by rw [h]; rfl)]

/-- Witness for the amended C8 at the record `[0, 1, 0, ..., 0]`. -/
theorem read_transform_first_element_witness :
    ((recordAt zeroHeadRecord 0).headD 0 = 0) ∧
    (readTransformMatrix zeroHeadRecord 0 = makeScale01 ∧
     (∀ arr2 id2, (recordAt arr2 id2).headD 0 ≠ 0 →
        readTransformMatrix arr2 id2 = recordAt arr2 id2) ∧
     (∀ arr3 id3, recordAt arr3 id3 = List.replicate 16 0 →
        readTransformMatrix arr3 id3 = makeScale01)) :=
  ⟨by decide, read_transform_first_element zeroHeadRecord 0 (by decide)⟩

theorem writeRecordAux_length (arr : List ℚ) (offset : Nat) (el : List ℚ) (n : Nat) :
    (writeRecordAux arr offset el n).length = arr.length := by
  induction n with
  | zero => rfl
  | succ m ih => simp [writeRecordAux, ih]

theorem writeRecord_length (arr : List ℚ) (offset : Nat) (el : List ℚ) :
    (writeRecord arr offset el).length = arr.length :=
  writeRecordAux_length arr offset el elementsPerTransform

theorem getD_set_ne (l : List ℚ) (i j : Nat) (a : ℚ) (h : i ≠ j) :
    (l.set i a).getD j 0 = l.getD j 0 := by
  simp only [List.getD, List.get?_eq_getElem?, List.getElem?_set_ne h]

theorem getD_set_self (l : List ℚ) (i : Nat) (a : ℚ) (h : i < l.length) :
    (l.set i a).getD i 0 = a := by
  rw [List.getD_eq_getElem _ _ (by simpa using h), List.getElem_set_self]

theorem writeRecordAux_getD_out (arr : List ℚ) (offset : Nat) (el : List ℚ)
    (n k : Nat) (hk : k < offset ∨ offset + n ≤ k) :
    (writeRecordAux arr offset el n).getD k 0 = arr.getD k 0 := by
  induction n with
  | zero => rfl
  | succ m ih =>
      rw [writeRecordAux, getD_set_ne _ _ _ _ (by omega)]
      exact ih (by omega)

theorem writeRecordAux_getD_in (arr : List ℚ) (offset : Nat) (el : List ℚ)
    (n j : Nat) (hj : j < n) (hlen : offset + j < arr.length) :
    (writeRecordAux arr offset el n).getD (offset + j) 0 = el.getD j 0 := by
  induction n with
  | zero => omega
  | succ m ih =>
      by_cases hjm : j = m
      · subst hjm
        rw [writeRecordAux]
        exact getD_set_self _ _ _ (by rw [writeRecordAux_length]; exact hlen)
      · rw [writeRecordAux, getD_set_ne _ _ _ _ (by omega)]
        exact ih (by omega)

theorem writeRecordAux_oob (arr : List ℚ) (offset : Nat) (el : List ℚ) (n : Nat)
    (h : arr.length ≤ offset) :
    writeRecordAux arr offset el n = arr := by
  induction n with
  | zero => rfl
  | succ m ih =>
      rw [writeRecordAux, ih]
      exact List.set_eq_of_length_le (by omega)

theorem writeTransformsToArray_cons (e : Nat × Mat4) (es : List (Nat × Mat4))
    (arr : List ℚ) :
    writeTransformsToArray (e :: es) arr
      = writeTransformsToArray es
          (writeRecord arr (e.1 * elementsPerTransform) (matrixWorldElements e.2)) := rfl

theorem writeTransformsToArray_length (entries : List (Nat × Mat4)) (arr : List ℚ) :
    (writeTransformsToArray entries arr).length = arr.length := by
  induction entries generalizing arr with
  | nil => rfl
  | cons e es ih =>
      rw [writeTransformsToArray_cons, ih, writeRecord_length]

theorem writeTransformsToArray_getD_out (entries : List (Nat × Mat4)) (arr : List ℚ)
    (k : Nat)
    (hk : ∀ e ∈ entries, k < e.1 * elementsPerTransform ∨
            e.1 * elementsPerTransform + elementsPerTransform ≤ k) :
    (writeTransformsToArray entries arr).getD k 0 = arr.getD k 0 := by
  induction entries generalizing arr with
  | nil => rfl
  | cons e es ih =>
      rw [writeTransformsToArray_cons,
          ih _ (fun e2 he2 => hk e2 (List.mem_cons_of_mem _ he2))]
      exact writeRecordAux_getD_out _ _ _ _ _ (hk e (List.mem_cons_self _ _))

theorem matrixWorldElements_getD (m : Mat4) (r c : Fin 4) :
    (matrixWorldElements m).getD (4 * c.val + r.val) 0 = m r c := by
  have hlt : 4 * c.val + r.val < 16 := by
    have hc := c.isLt
    have hr := r.isLt
    omega
  rw [matrixWorldElements, List.getD_eq_getElem _ _ (by simpa using hlt),
      List.getElem_map, List.getElem_finRange]
  have hmono : ∀ (a b : Fin 4), a = r → b = c → m a b = m r c := by
    intro a b ha hb
    rw [ha, hb]
  apply hmono <;> apply Fin.ext <;> dsimp <;> omega

theorem writeTransformsToArray_getD_in :
    ∀ (entries : List (Nat × Mat4)) (arr : List ℚ) (id : Nat) (m : Mat4) (j : Nat),
      arr.length = transformArrayLength →
      entries.Pairwise (fun e1 e2 => e1.1 ≠ e2.1) →
      (id, m) ∈ entries → id < maxEntityCount → j < elementsPerTransform →
      (writeTransformsToArray entries arr).getD (id * elementsPerTransform + j) 0
        = (matrixWorldElements m).getD j 0 := by
  intro entries
  induction entries with
  | nil =>
      intro arr id m j _ _ hmem _ _
      exact absurd hmem (List.not_mem_nil _)
  | cons e es ih =>
      intro arr id m j hlen hnd hmem hid hj
      have hpair := List.pairwise_cons.mp hnd
      rw [writeTransformsToArray_cons]
      rcases List.mem_cons.mp hmem with heq | hmem2
      · cases heq
        have hout :
            (writeTransformsToArray es
                (writeRecord arr (id * elementsPerTransform) (matrixWorldElements m))).getD
              (id * elementsPerTransform + j) 0
              = (writeRecord arr (id * elementsPerTransform)
                  (matrixWorldElements m)).getD (id * elementsPerTransform + j) 0 := by
          apply writeTransformsToArray_getD_out
          intro e2 he2
          have hne : id ≠ e2.1 := hpair.1 e2 he2
          simp only [elementsPerTransform_eq] at hj ⊢
          omega
        rw [hout]
        unfold writeRecord
        apply writeRecordAux_getD_in _ _ _ _ _ hj
        rw [hlen]
        simp only [elementsPerTransform_eq, transformArrayLength_eq,
          maxEntityCount_eq] at hj hid ⊢
        omega
      · exact ih _ id m j (by rw [writeRecord_length]; exact hlen) hpair.2 hmem2 hid hj

theorem writeTransformsToArray_filter :
    ∀ (entries : List (Nat × Mat4)) (arr : List ℚ),
      arr.length = transformArrayLength →
      writeTransformsToArray entries arr
        = writeTransformsToArray (entries.filter fun e => e.1 < maxEntityCount) arr := by
  intro entries
  induction entries with
  | nil => intro arr _; rfl
  | cons e es ih =>
      intro arr hlen
      by_cases he : e.1 < maxEntityCount
      · rw [List.filter_cons_of_pos (by simpa using he), writeTransformsToArray_cons,
            writeTransformsToArray_cons]
        exact ih _ (by rw [writeRecord_length]; exact hlen)
      · rw [List.filter_cons_of_neg (by simpa using he), writeTransformsToArray_cons]
        have hoob :
            writeRecord arr (e.1 * elementsPerTransform) (matrixWorldElements e.2) = arr := by
          unfold writeRecord
          apply writeRecordAux_oob
          simp only [maxEntityCount_eq] at he
          rw [hlen]
          simp only [transformArrayLength_eq, elementsPerTransform_eq]
          omega
        rw [hoob]
        exact ih _ hlen

/-- C9 counterexample: the buffer record is not the row-major serialization.
For an object at identity 1 whose world matrix is the translation by
(1, 2, 3), the row-major layout claims the element at row 0, column 3 —
the value 1 — sits at index 3 of the record, but after the controller's
transform write the buffer holds 0 there (three.js `Matrix4.elements` is
column-major, so index 3 carries the entry at row 3, column 0). -/
theorem transform_row_major_counterexample :
    (writeTransformsToArray [(1, translate123)] initialTransformArray).getD
        (1 * elementsPerTransform + 3) 0 = 0 ∧
    (rowMajorElements translate123).getD 3 0 = 1 ∧
    (matrixWorldElements translate123).getD 3 0 = 0 := by
  refine ⟨?_, by decide, by decide⟩
  have h := writeTransformsToArray_getD_in [(1, translate123)] initialTransformArray
    1 translate123 3
    (by simp [initialTransformArray])
    (by simp)
    (by simp)
    (by decide)
    (by decide)
  rw [h]
  decide

/-- C9 amended: after the controller's transform write, for every live
identity `id < N` the 16 consecutive floats at offset
`id * elementsPerTransform` equal the `Matrix4.elements` serialization of
that object's world matrix — which is three.js's column-major flattening,
with the entry at row `r`, column `c` at index `4 * c + r` (not `4 * r + c`)
— the buffer length is unchanged, and records of distinct identities never
overlap. -/
theorem transform_buffer_layout (entries : List (Nat × Mat4)) (arr : List ℚ)
    (id : Nat) (m : Mat4) (j : Nat) (r c : Fin 4)
    (hlen : arr.length = transformArrayLength)
    (hnd : entries.Pairwise (fun e1 e2 => e1.1 ≠ e2.1))
    (hmem : (id, m) ∈ entries) (hid : id < maxEntityCount)
    (hj : j < elementsPerTransform) :
    (writeTransformsToArray entries arr).getD (id * elementsPerTransform + j) 0
      = (matrixWorldElements m).getD j 0 ∧
    (matrixWorldElements m).getD (4 * c.val + r.val) 0 = m r c ∧
    (writeTransformsToArray entries arr).length = arr.length ∧
    (∀ i1 i2 j1 j2 : Nat, i1 ≠ i2 → j1 < elementsPerTransform →
        j2 < elementsPerTransform →
        i1 * elementsPerTransform + j1 ≠ i2 * elementsPerTransform + j2) := by
  refine ⟨writeTransformsToArray_getD_in entries arr id m j hlen hnd hmem hid hj,
          matrixWorldElements_getD m r c,
          writeTransformsToArray_length entries arr, ?_⟩
  intro i1 i2 j1 j2 hne hj1 hj2
  simp only [elementsPerTransform_eq] at hj1 hj2 ⊢
  omega

/-- Witness for the amended C9 at identity 1 with the translation matrix. -/
theorem transform_buffer_layout_witness :
    (initialTransformArray.length = transformArrayLength) ∧
    ([(1, translate123)].Pairwise (fun e1 e2 : Nat × Mat4 => e1.1 ≠ e2.1)) ∧
    ((1, translate123) ∈ [(1, translate123)]) ∧
    (1 < maxEntityCount) ∧ (3 < elementsPerTransform) ∧
    ((writeTransformsToArray [(1, translate123)] initialTransformArray).getD
        (1 * elementsPerTransform + 3) 0 = (matrixWorldElements translate123).getD 3 0 ∧
     (matrixWorldElements translate123).getD
        (4 * (3 : Fin 4).val + (2 : Fin 4).val) 0 = translate123 2 3 ∧
     (writeTransformsToArray [(1, translate123)] initialTransformArray).length
        = initialTransformArray.length ∧
     (∀ i1 i2 j1 j2 : Nat, i1 ≠ i2 → j1 < elementsPerTransform →
        j2 < elementsPerTransform →
        i1 * elementsPerTransform + j1 ≠ i2 * elementsPerTransform + j2)) :=
  ⟨by simp [initialTransformArray], by simp, by simp, by decide, by decide,
   transform_buffer_layout [(1, translate123)] initialTransformArray 1 translate123 3 2 3
     (by simp [initialTransformArray]) (by simp) (by simp) (by decide) (by decide)⟩

/-- C10: a transform write for an out-of-range identity (record reaching at
or past the end of the `16 × N`-element buffer) is silently discarded
element by element, faulting nowhere and modifying nothing: the record
write is the identity on the buffer, and writing all live objects'
transforms gives exactly the buffer that writing only the in-range
(`id < N`) objects would give. -/
theorem out_of_range_write_discarded (entries : List (Nat × Mat4)) (arr : List ℚ)
    (id : Nat) (el : List ℚ)
    (hlen : arr.length = transformArrayLength)
    (hid : transformArrayLength ≤ id * elementsPerTransform + (elementsPerTransform - 1)) :
    writeRecord arr (id * elementsPerTransform) el = arr ∧
    writeTransformsToArray entries arr
      = writeTransformsToArray (entries.filter fun e => e.1 < maxEntityCount) arr := by
  constructor
  · unfold writeRecord
    apply writeRecordAux_oob
    rw [hlen]
    simp only [transformArrayLength_eq, elementsPerTransform_eq] at hid ⊢
    omega
  · exact writeTransformsToArray_filter entries arr hlen

/-- Witness for C10 at the out-of-range identity 1024. -/
theorem out_of_range_write_discarded_witness :
    (initialTransformArray.length = transformArrayLength) ∧
    (transformArrayLength
      ≤ 1024 * elementsPerTransform + (elementsPerTransform - 1)) ∧
    (writeRecord initialTransformArray (1024 * elementsPerTransform) []
        = initialTransformArray ∧
     writeTransformsToArray [(1024, translate123)] initialTransformArray
       = writeTransformsToArray
           ([(1024, translate123)].filter fun e => e.1 < maxEntityCount)
           initialTransformArray) :=
  ⟨by simp [initialTransformArray], by decide,
   out_of_range_write_discarded [(1024, translate123)] initialTransformArray 1024 []
     (by simp [initialTransformArray]) (by decide)⟩

end ThreeAD
